import Mathlib

/-!
# TypeSpark Study Session Engine — verification development

Shallow embedding of the core logic of the TypeSpark typing-practice app:

* the scoring computation of `submit_answer` (backend/app.py, lines 289-307),
* the next-item sequencing of `get_next_item` (backend/app.py, lines 232-258),
* the text-file segmentation of `upload_file` (backend/app.py, lines 102-152),
* the stats aggregation of `recordSession`
  (frontend/src/services/statsStorage.js, lines 44-98).

Python strings are embedded as `List Char` (Python strings are character
sequences); Python floats arising from true division are embedded as `ℚ`;
calendar days (JS `toDateString` values) are embedded as `ℤ` day numbers.
-/

namespace TypeSpark

/-! ## Scoring engine (backend/app.py, `submit_answer`, lines 289-307) -/

/-- `1000` — the comparison-length cap in
`max_compare_length = min(len(expected), len(user_answer), 1000)`. -/
def MAX_COMPARE_LENGTH : Nat := 1000

/-- `sum(1 for a, b in zip(user_answer, expected) if a == b)`:
the number of positionally matching character pairs. -/
def pyMatches (user_answer expected : List Char) : Nat :=
  ((user_answer.zip expected).filter (fun ab => ab.1 = ab.2)).length

/-- Lines 290-294 of `submit_answer`:
`max_compare_length = min(len(expected), len(user_answer), 1000)`;
`matches = sum(1 for a, b in zip(user_answer[:L], expected[:L]) if a == b)`;
`accuracy = matches / max(len(expected[:L]), 1) if expected else 0`. -/
def accuracy (expected user_answer : List Char) : ℚ :=
  let L := min (min expected.length user_answer.length) MAX_COMPARE_LENGTH
  if expected = [] then 0
  else (pyMatches (user_answer.take L) (expected.take L) : ℚ)
        / ((max (expected.take L).length 1 : Nat) : ℚ)

/-- Helper for Python `str.split()` with no argument: split on single
whitespace characters, keeping empty fragments (filtered out below). -/
def splitWsAux : List Char → List Char → List (List Char)
  | cur, [] => [cur.reverse]
  | cur, c :: cs =>
      if c.isWhitespace then cur.reverse :: splitWsAux [] cs
      else splitWsAux (c :: cur) cs

/-- Python `expected.split()`: whitespace-delimited tokens, empties dropped. -/
def pySplitWs (l : List Char) : List (List Char) :=
  (splitWsAux [] l).filter (fun w => w ≠ [])

/-- Line 298: `words = len(expected.split())`. -/
def wordCount (expected : List Char) : Nat :=
  (pySplitWs expected).length

/-- Line 299: `wpm = (words / time_taken) * 60 if time_taken > 0 else 0`. -/
def wpm (expected : List Char) (time_taken : ℚ) : ℚ :=
  if 0 < time_taken then ((wordCount expected : ℚ) / time_taken) * 60 else 0

/-! ## Study items and sessions (backend/app.py) -/

/-- A study item dict as built by `upload_file` / `quickstart`:
`{'id': ..., 'prompt': ..., 'content': ..., 'type': ..., 'context': ...}`. -/
structure StudyItem where
  id : List Char
  prompt : List Char
  content : List Char
  type : List Char
  context : List Char
deriving DecidableEq, Repr

/-- A session dict as stored in `sessions[session_id]` (lines 156-161):
`{'items': ..., 'current_index': 0, 'total_items': len(study_items),
'filename': ...}`. -/
structure Session where
  items : List StudyItem
  current_index : Nat
  total_items : Nat
  filename : List Char
deriving DecidableEq, Repr

/-- Session creation (lines 155-161): fresh session with
`current_index = 0` and `total_items = len(study_items)`. -/
def createSession (items : List StudyItem) (filename : List Char) : Session :=
  { items := items, current_index := 0, total_items := items.length,
    filename := filename }

/-- The three outcomes of `get_next_item` (lines 232-258): the
exhausted-session signal (`'No more items in session'`, HTTP 400 with
`session_completed: True`), a served item with its `progress` payload, or
the catch-all server error (HTTP 500) for an unexpected exception. -/
inductive NextItemResult where
  | exhausted : NextItemResult
  | served : StudyItem → Nat → Nat → NextItemResult
  | serverError : NextItemResult
deriving DecidableEq, Repr

/-- `get_next_item` (lines 232-258), for an existing session: if
`current_index >= total_items` return the exhausted signal; otherwise read
`items[current_index]`, increment `current_index`, and return the item with
`progress = {current: current_index, total: total_items}` (the state after
advancing). An out-of-range read raises `IndexError`, caught by the
`except` clause as a server error. The handler's effect on the shared
session is returned as the second component. -/
def get_next_item (s : Session) : NextItemResult × Session :=
  if s.total_items ≤ s.current_index then
    (.exhausted, s)
  else
    match s.items.get? s.current_index with
    | none => (.serverError, s)
    | some item =>
        let s' : Session := { s with current_index := s.current_index + 1 }
        (.served item s'.current_index s'.total_items, s')

/-- The session state after one `get_next_item` call. -/
def advance (s : Session) : Session := (get_next_item s).2

/-- The session state after `k` consecutive `get_next_item` calls. -/
def stepN (s : Session) : Nat → Session
  | 0 => s
  | k + 1 => advance (stepN s k)

/-! ## Answer submission (backend/app.py, `submit_answer`, lines 260-320) -/

/-- A request body with the required `answer` and `item_id` fields present
(missing either is rejected earlier, line 272); `time_taken` is optional,
read via `data.get('time_taken', 60)`. -/
structure SubmitRequest where
  answer : List Char
  item_id : List Char
  time_taken : Option ℚ
deriving DecidableEq, Repr

/-- The `result` dict of lines 302-307. -/
structure SubmitResult where
  item_id : List Char
  accuracy : ℚ
  wpm : ℚ
  time_taken : ℚ
deriving DecidableEq, Repr

/-- Outcome of `submit_answer` for an existing session with a well-formed
body: the `'Item not found'` 404, or the 200 payload
`{result, progress: {current, total}}`. -/
inductive SubmitResponse where
  | itemNotFound : SubmitResponse
  | ok : SubmitResult → Nat → Nat → SubmitResponse
deriving DecidableEq, Repr

/-- Lines 280-284: the linear scan `for i in session['items']:
if i['id'] == item_id: item = i; break`. -/
def findItem (items : List StudyItem) (item_id : List Char) : Option StudyItem :=
  items.find? (fun i => i.id = item_id)

/-- `submit_answer` (lines 260-320) for an existing session and a body
containing `answer` and `item_id`: locate the item by id (404 if absent),
score it with `accuracy` and `wpm` (with `time_taken` defaulting to 60),
and return the result plus the session's current progress. The handler
never writes to the session; the returned second component is its effect
on the shared session state. -/
def submit_answer (s : Session) (req : SubmitRequest) : SubmitResponse × Session :=
  match findItem s.items req.item_id with
  | none => (.itemNotFound, s)
  | some item =>
      let expected := item.content
      let acc := accuracy expected req.answer
      let time_taken := req.time_taken.getD 60
      let w := wpm expected time_taken
      (.ok { item_id := req.item_id, accuracy := acc, wpm := w,
             time_taken := time_taken }
         s.current_index s.total_items, s)

/-! ## Text segmentation (backend/app.py, `upload_file`, lines 102-152) -/

/-- Python `text.split('\n\n')`: split on each non-overlapping occurrence
of two consecutive newline characters, keeping empty fragments. -/
def splitParas : List Char → List (List Char)
  | [] => [[]]
  | '\n' :: '\n' :: rest => [] :: splitParas rest
  | c :: rest =>
      match splitParas rest with
      | [] => [[c]]
      | p :: ps => (c :: p) :: ps

/-- Python `p.strip()`: remove leading and trailing whitespace. -/
def pyStrip (l : List Char) : List Char :=
  ((l.dropWhile Char.isWhitespace).reverse.dropWhile Char.isWhitespace).reverse

/-- The truncation marker appended at line 152:
`'... (content truncated for performance)'`. -/
def truncMarker : List Char :=
  "... (content truncated for performance)".toList

/-- Lines 150-152: `if len(item['content']) > 1000:
item['content'] = item['content'][:1000] + '... (content truncated for
performance)'`. -/
def truncateItem (it : StudyItem) : StudyItem :=
  if 1000 < it.content.length then
    { it with content := it.content.take 1000 ++ truncMarker }
  else it

/-- The text-file branch of `upload_file` (lines 102-152). `idGen`
abstracts `str(uuid.uuid4())` (external entropy); ids never influence the
emitted structure. Steps: split into stripped non-empty paragraphs; if
none survive or the text is shorter than 100 characters, one item carrying
the whole text; otherwise one item per paragraph longer than 10 characters
among the first 20; fall back to `text[:2000]` if that filter kept
nothing; fall back to a sample item if still empty (unreachable here);
finally truncate every item's content at 1000 characters with the marker. -/
def segmentText (idGen : Nat → List Char) (text : List Char) : List StudyItem :=
  let paragraphs :=
    ((splitParas text).map pyStrip).filter (fun p => ¬ p.isEmpty)
  let study_items :=
    if paragraphs.isEmpty ∨ text.length < 100 then
      [{ id := idGen 0, prompt := "Type this text:".toList, content := text,
         type := "text".toList, context := "Custom Text".toList }]
    else
      ((paragraphs.take 20).enum.filter (fun ip => 10 < ip.2.length)).map
        (fun ip =>
          { id := idGen ip.1,
            prompt := ("Type this paragraph (" ++ toString (ip.1 + 1) ++ "/"
                        ++ toString (min paragraphs.length 20) ++ "):").toList,
            content := ip.2, type := "text".toList,
            context := "Custom Text".toList })
  let study_items :=
    if study_items.isEmpty then
      [{ id := idGen 0, prompt := "Type this text:".toList,
         content := text.take 2000, type := "text".toList,
         context := "Custom Text".toList }]
    else study_items
  let study_items :=
    if study_items.isEmpty then
      [{ id := idGen 0, prompt := "Type this text:".toList,
         content := "No content could be extracted. Here is a sample text.".toList,
         type := "text".toList, context := "Sample".toList }]
    else study_items
  study_items.map truncateItem

/-! ## Stats aggregation (frontend/src/services/statsStorage.js) -/

/-- A session summary as passed to `recordSession` by PracticePage:
`{date, duration, items, wpm, accuracy}`. `items` is optional (read as
`session.items || 0`); `day` is the calendar day (`toDateString`) on which
the summary is recorded, embedded as an integer day number. -/
structure SessionSummary where
  wpm : ℚ
  accuracy : ℚ
  duration : ℚ
  items : Option Nat
  day : ℤ
deriving DecidableEq, Repr

/-- The persisted stats object (statsStorage.js lines 13-20), with
`lastPracticeDate` (`null` or a date string) embedded as `Option ℤ`. -/
structure Stats where
  averageWpm : ℚ
  accuracy : ℚ
  practiceTime : ℚ
  currentStreak : Nat
  lastPracticeDate : Option ℤ
  totalItems : Nat
deriving DecidableEq, Repr

/-- `recordSession` (statsStorage.js lines 44-98), with `today` the
calendar day at the time of the call: prepend the summary
(`sessions.unshift`), keep the 20 most recent (`sessions.length = 20`),
recompute `averageWpm`/`accuracy` as the mean over the retained list, add
`duration / 60` minutes and `items || 0` to the cumulative counters,
update the streak by comparing `today` with `lastPracticeDate` (same day:
unchanged; yesterday: `+= 1`; otherwise reset to 1; no prior date: 1), and
set `lastPracticeDate` to `today`. -/
def recordSession (today : ℤ) (session : SessionSummary) (stats : Stats)
    (sessions : List SessionSummary) : Stats × List SessionSummary :=
  let sessions := (session :: sessions).take 20
  let totalSessions := sessions.length
  if 0 < totalSessions then
    let stats := { stats with
      averageWpm := ((sessions.map SessionSummary.wpm).sum) / (totalSessions : ℚ)
      accuracy := ((sessions.map SessionSummary.accuracy).sum) / (totalSessions : ℚ)
      practiceTime := stats.practiceTime + session.duration / 60
      totalItems := stats.totalItems + session.items.getD 0 }
    let streak :=
      match stats.lastPracticeDate with
      | some lastDay =>
          if today = lastDay then stats.currentStreak
          else if today - 1 = lastDay then stats.currentStreak + 1
          else 1
      | none => 1
    ({ stats with currentStreak := streak, lastPracticeDate := some today },
     sessions)
  else
    (stats, sessions)

/-! ## Helper lemmas -/

/-- The number of matching pairs is bounded by the zipped length. -/
lemma pyMatches_le_min (as bs : List Char) :
    pyMatches as bs ≤ min as.length bs.length := by
  calc pyMatches as bs ≤ (as.zip bs).length := List.length_filter_le _ _
    _ = min as.length bs.length := List.length_zip as bs

/-- Zipping a list with itself matches at every position. -/
lemma pyMatches_self (l : List Char) : pyMatches l l = l.length := by
  induction l with
  | nil => rfl
  | cons a as ih =>
      simp only [pyMatches, List.zip_cons_cons, List.filter_cons] at *
      simp [ih]

/-- The zip-and-filter match count equals the number of positions `i`
below both lengths at which the two lists agree. -/
lemma pyMatches_eq_range_count (as bs : List Char) :
    pyMatches as bs
      = ((List.range (min as.length bs.length)).filter
          (fun i => as.getD i ' ' = bs.getD i ' ')).length := by
  induction as generalizing bs with
  | nil => simp [pyMatches]
  | cons a as ih =>
      cases bs with
      | nil => simp [pyMatches]
      | cons b bs =>
          have hmin : min (a :: as).length (b :: bs).length
              = min as.length bs.length + 1 := by
            simp [Nat.succ_min_succ]
          rw [hmin, List.range_succ_eq_map]
          simp only [pyMatches, List.zip_cons_cons, List.filter_cons,
            List.getD_cons_zero, List.getD_cons_succ, List.filter_map,
            List.length_map]
          have hcomp :
              ((fun i => decide (List.getD (a :: as) i ' ' = List.getD (b :: bs) i ' '))
                ∘ Nat.succ)
              = fun i => decide (List.getD as i ' ' = List.getD bs i ' ') := by
            funext i
            simp [Function.comp, List.getD_cons_succ]
          rw [hcomp]
          by_cases hab : a = b <;> simp [hab, pyMatches] at ih ⊢ <;> rw [ih]

/-- `getD` commutes with `take` below the cut. -/
lemma getD_take (l : List Char) (n i : Nat) (h : i < n) (d : Char) :
    (l.take n).getD i d = l.getD i d := by
  induction l generalizing n i with
  | nil => simp
  | cons x xs ih =>
      cases n with
      | zero => exact absurd h (Nat.not_lt_zero i)
      | succ m =>
          cases i with
          | zero => simp
          | succ j =>
              simp only [List.take_cons, List.getD_cons_succ]
              exact ih m j (Nat.lt_of_succ_lt_succ h)

/-! ## Scoring-engine theorems -/

/-- C2: for every expected string, typed string (and any elapsed time,
which the accuracy computation does not consult), the accuracy returned by
`submit_answer` equals `matches / max(L, 1)` where
`L = min(len(expected), len(typed), MAX_COMPARE_LENGTH)` and `matches` is
the number of positions `i < L` with `expected[i] == typed[i]`; when
`expected` is empty the accuracy is 0. -/
theorem submit_accuracy_formula (expected typed : List Char) :
    accuracy expected typed
      = ((((List.range (min (min expected.length typed.length) MAX_COMPARE_LENGTH)).filter
            (fun i => expected.getD i ' ' = typed.getD i ' ')).length : Nat) : ℚ)
        / ((max (min (min expected.length typed.length) MAX_COMPARE_LENGTH) 1 : Nat) : ℚ)
    ∧ (expected = [] → accuracy expected typed = 0) := by
  constructor
  · by_cases he : expected = []
    · subst he
      simp [accuracy]
    · have hLe : min (min expected.length typed.length) MAX_COMPARE_LENGTH
          ≤ expected.length :=
        le_trans (Nat.min_le_left _ _) (Nat.min_le_left _ _)
      have hLt : min (min expected.length typed.length) MAX_COMPARE_LENGTH
          ≤ typed.length :=
        le_trans (Nat.min_le_left _ _) (Nat.min_le_right _ _)
      have hlen_e : (expected.take
            (min (min expected.length typed.length) MAX_COMPARE_LENGTH)).length
          = min (min expected.length typed.length) MAX_COMPARE_LENGTH := by
        simp [List.length_take, Nat.min_eq_left hLe]
      have hlen_t : (typed.take
            (min (min expected.length typed.length) MAX_COMPARE_LENGTH)).length
          = min (min expected.length typed.length) MAX_COMPARE_LENGTH := by
        simp [List.length_take, Nat.min_eq_left hLt]
      have hnum : pyMatches
            (typed.take (min (min expected.length typed.length) MAX_COMPARE_LENGTH))
            (expected.take (min (min expected.length typed.length) MAX_COMPARE_LENGTH))
          = ((List.range (min (min expected.length typed.length) MAX_COMPARE_LENGTH)).filter
              (fun i => expected.getD i ' ' = typed.getD i ' ')).length := by
        rw [pyMatches_eq_range_count, hlen_e, hlen_t, Nat.min_self]
        congr 1
        apply List.filter_congr
        intro i hi
        have hiL : i < min (min expected.length typed.length) MAX_COMPARE_LENGTH :=
          List.mem_range.mp hi
        rw [getD_take _ _ _ hiL, getD_take _ _ _ hiL]
        exact decide_eq_decide.mpr eq_comm
      simp only [accuracy, if_neg he]
      rw [hnum, hlen_e]
  · intro he
    subst he
    simp [accuracy]

/-- Witness for `submit_accuracy_formula` at `expected = ""`,
`typed = "x"`. -/
theorem submit_accuracy_formula_witness :
    ([] : List Char) = [] ∧ accuracy [] ['x'] = 0 :=
  ⟨rfl, (submit_accuracy_formula [] ['x']).2 rfl⟩

/-- C8 counterexample: the claim quantifies over every expected string,
but for the empty expected string (and elapsed time `1 > 0`) the code's
`if expected else 0` guard yields accuracy 0, not 1.0. -/
theorem accuracy_identity_counterexample :
    (0 : ℚ) < 1 ∧ accuracy [] [] ≠ 1 := by
  constructor
  · norm_num
  · simp [accuracy]

/-- C8 amended: for every NON-EMPTY expected string (and any elapsed
time), scoring the expected text against an identical typed string yields
accuracy exactly 1.0. -/
theorem accuracy_identity_nonempty (expected : List Char)
    (h : expected ≠ []) : accuracy expected expected = 1 := by
  have hpos : 0 < expected.length := List.length_pos.mpr h
  have hL1 : 1 ≤ min (min expected.length expected.length) MAX_COMPARE_LENGTH :=
    le_min (le_min hpos hpos) (by norm_num [MAX_COMPARE_LENGTH])
  have hLe : min (min expected.length expected.length) MAX_COMPARE_LENGTH
      ≤ expected.length :=
    le_trans (Nat.min_le_left _ _) (Nat.min_le_left _ _)
  have hlen : (expected.take
        (min (min expected.length expected.length) MAX_COMPARE_LENGTH)).length
      = min (min expected.length expected.length) MAX_COMPARE_LENGTH := by
    simp [List.length_take, Nat.min_eq_left hLe]
  simp only [accuracy, if_neg h, pyMatches_self, hlen, Nat.max_eq_left hL1]
  exact div_self (Nat.cast_ne_zero.mpr (by omega))

/-- Witness for `accuracy_identity_nonempty` at `expected = "ab"`. -/
theorem accuracy_identity_nonempty_witness :
    (['a', 'b'] : List Char) ≠ [] ∧ accuracy ['a', 'b'] ['a', 'b'] = 1 :=
  ⟨by decide, accuracy_identity_nonempty ['a', 'b'] (by decide)⟩

/-- The accuracy value is non-negative. -/
lemma accuracy_nonneg (expected typed : List Char) :
    0 ≤ accuracy expected typed := by
  by_cases he : expected = []
  · simp [accuracy, he]
  · simp only [accuracy, if_neg he]
    exact div_nonneg (Nat.cast_nonneg _) (Nat.cast_nonneg _)

/-- The accuracy value is at most 1. -/
lemma accuracy_le_one (expected typed : List Char) :
    accuracy expected typed ≤ 1 := by
  by_cases he : expected = []
  · simp [accuracy, he]
  · simp only [accuracy, if_neg he]
    have hden : (0 : Nat) < max (expected.take
        (min (min expected.length typed.length) MAX_COMPARE_LENGTH)).length 1 :=
      Nat.lt_of_lt_of_le Nat.zero_lt_one (Nat.le_max_right _ 1)
    rw [div_le_one (by exact_mod_cast hden)]
    have hm := pyMatches_le_min
      (typed.take (min (min expected.length typed.length) MAX_COMPARE_LENGTH))
      (expected.take (min (min expected.length typed.length) MAX_COMPARE_LENGTH))
    have hchain : pyMatches
          (typed.take (min (min expected.length typed.length) MAX_COMPARE_LENGTH))
          (expected.take (min (min expected.length typed.length) MAX_COMPARE_LENGTH))
        ≤ max (expected.take
            (min (min expected.length typed.length) MAX_COMPARE_LENGTH)).length 1 :=
      le_trans hm (le_trans (Nat.min_le_right _ _) (Nat.le_max_left _ 1))
    exact_mod_cast hchain

/-- The words-per-minute value is non-negative. -/
lemma wpm_nonneg (expected : List Char) (time_taken : ℚ) :
    0 ≤ wpm expected time_taken := by
  unfold wpm
  by_cases ht : 0 < time_taken
  · rw [if_pos ht]
    exact mul_nonneg (div_nonneg (Nat.cast_nonneg _) (le_of_lt ht)) (by norm_num)
  · rw [if_neg ht]

/-- C4: whenever `time_taken > 0`, `submit_answer`'s wpm is
`(words / time_taken) * 60` with `words` the whitespace-delimited token
count of the expected text, and whenever `time_taken ≤ 0` the wpm is 0
(independent of the typed text, which `wpm` does not consult): the
division is guarded against non-positive divisors. -/
theorem submit_wpm_formula (expected : List Char) (t : ℚ) :
    (0 < t → wpm expected t = ((wordCount expected : ℚ) / t) * 60)
    ∧ (t ≤ 0 → wpm expected t = 0) := by
  constructor
  · intro ht
    rw [wpm, if_pos ht]
  · intro ht
    rw [wpm, if_neg (not_lt.mpr ht)]

/-- Witness for `submit_wpm_formula` at `expected = "hi you"`, `t = 30`
and `t = 0`. -/
theorem submit_wpm_formula_witness :
    ((0 : ℚ) < 30
      ∧ wpm ['h', 'i', ' ', 'y'] 30 = ((wordCount ['h', 'i', ' ', 'y'] : ℚ) / 30) * 60)
    ∧ ((0 : ℚ) ≤ 0 ∧ wpm ['h', 'i', ' ', 'y'] 0 = 0) :=
  ⟨⟨by norm_num, (submit_wpm_formula ['h', 'i', ' ', 'y'] 30).1 (by norm_num)⟩,
   ⟨le_refl 0, (submit_wpm_formula ['h', 'i', ' ', 'y'] 0).2 (le_refl 0)⟩⟩

/-- C7: `submit_answer` never mutates the session: `current_index`,
`items`, `total_items` (and `filename`) are all unchanged, whether the
item is found or not; only `get_next_item` advances `current_index`. -/
theorem submit_answer_preserves_session (s : Session) (req : SubmitRequest) :
    (submit_answer s req).2 = s := by
  unfold submit_answer
  cases findItem s.items req.item_id <;> rfl

/-- C9: every successfully returned submission result carries an accuracy
between 0 and 1 inclusive and a non-negative wpm. -/
theorem submit_result_bounds (s : Session) (req : SubmitRequest)
    (item : StudyItem) (hfind : findItem s.items req.item_id = some item) :
    (submit_answer s req).1
      = .ok { item_id := req.item_id,
              accuracy := accuracy item.content req.answer,
              wpm := wpm item.content (req.time_taken.getD 60),
              time_taken := req.time_taken.getD 60 }
          s.current_index s.total_items
    ∧ 0 ≤ accuracy item.content req.answer
    ∧ accuracy item.content req.answer ≤ 1
    ∧ 0 ≤ wpm item.content (req.time_taken.getD 60) := by
  refine ⟨?_, accuracy_nonneg _ _, accuracy_le_one _ _, wpm_nonneg _ _⟩
  rw [submit_answer, hfind]

/-! ## Demo values used by the witnesses -/

/-- A concrete study item for witness instantiations. -/
def demoItem : StudyItem :=
  { id := "item-1".toList, prompt := "Type this text:".toList,
    content := "hi there".toList, type := "text".toList,
    context := "Custom Text".toList }

/-- A concrete one-item session for witness instantiations. -/
def demoSession : Session := createSession [demoItem] "quickstart.txt".toList

/-- A concrete submit request (no `time_taken`) for witness
instantiations. -/
def demoReq : SubmitRequest :=
  { answer := "hi there".toList, item_id := "item-1".toList,
    time_taken := none }

/-- Witness for `submit_result_bounds` on the demo session. -/
theorem submit_result_bounds_witness :
    findItem demoSession.items demoReq.item_id = some demoItem
    ∧ (0 ≤ accuracy demoItem.content demoReq.answer
        ∧ accuracy demoItem.content demoReq.answer ≤ 1
        ∧ 0 ≤ wpm demoItem.content (demoReq.time_taken.getD 60)) :=
  ⟨rfl, (submit_result_bounds demoSession demoReq demoItem rfl).2⟩

/-! ## Default `time_taken` under CPython float semantics (C10)

Line 299 runs in IEEE-754 binary64 ("double") arithmetic: with `words` a
Python int and `time_taken` the int default 60, CPython evaluates
`words / 60` as one correctly rounded double division and `* 60` as one
correctly rounded double multiplication (the int 60 converts to a double
exactly).  Exact-rational arithmetic would cancel `(words / 60) * 60` to
`words`, but the double rounding does not always: 31 words yield
31.000000000000004.  The model below implements binary64
round-to-nearest, ties-to-even on dyadic rationals; the exponent range is
unbounded (overflow and subnormals are unreachable at this program's
magnitudes, which sit well inside the normal range). -/

/-- Fuelled floor-log₂ by structural recursion (so the kernel can
evaluate it): `log2fuel f n = ⌊log₂ n⌋` for `1 ≤ n ≤ 2 ^ f`. -/
def log2fuel : Nat → Nat → Nat
  | 0, _ => 0
  | f + 1, n => if n < 2 then 0 else log2fuel f (n / 2) + 1

/-- `⌊log₂ n⌋` for `n ≥ 1` (`n` itself is always enough fuel). -/
def natLog2 (n : Nat) : Nat := log2fuel n n

/-- `⌊log₂ (a / b)⌋` for positive naturals: the candidate
`⌊log₂ a⌋ - ⌊log₂ b⌋` is off by at most one, fixed by testing
`2 ^ c ≤ a / b`, i.e. `b * 2 ^ max c 0 ≤ a * 2 ^ max (-c) 0`. -/
def ratLog2 (a b : Nat) : Int :=
  let c : Int := (natLog2 a : Int) - (natLog2 b : Int)
  if b * 2 ^ c.toNat ≤ a * 2 ^ (-c).toNat then c else c - 1

/-- Round the ratio `a / b` of naturals to the nearest integer, ties to
even. -/
def roundHalfEvenDiv (a b : Nat) : Nat :=
  let d := a / b
  let r := a % b
  if 2 * r < b then d
  else if b < 2 * r then d + 1
  else if d % 2 = 0 then d else d + 1

/-- Binary64 rounding of the positive ratio `a / b`, as a pair `(m, e)`
of value `m * 2 ^ e`: pick the exponent `e` putting `a / b` into
`[2 ^ 52, 2 ^ 53) * 2 ^ e`, then round the scaled ratio
`(a * 2 ^ max (-e) 0) / (b * 2 ^ max e 0)` to the nearest integer, ties
to even (a carry up to `2 ^ 53` keeps the exact value, so no
renormalisation is needed). -/
def b64DivPos (a b : Nat) : Nat × Int :=
  let e : Int := ratLog2 a b - 52
  (roundHalfEvenDiv (a * 2 ^ (-e).toNat) (b * 2 ^ e.toNat), e)

/-- Correctly rounded binary64 quotient of two naturals (CPython's
int / int true division), zero mapped to zero. -/
def b64DivNat (a b : Nat) : Nat × Int :=
  if a = 0 then (0, 0) else b64DivPos a b

/-- Correctly rounded binary64 product of a double `(m, e)` by a small
natural (CPython's float * int with the int exactly representable as a
double): the exact product `m * k * 2 ^ e` is the ratio
`(m * k * 2 ^ max e 0) / 2 ^ max (-e) 0`, rounded once. -/
def b64MulNat (p : Nat × Int) (k : Nat) : Nat × Int :=
  if p.1 * k = 0 then (0, 0)
  else b64DivPos (p.1 * k * 2 ^ p.2.toNat) (2 ^ (-p.2).toNat)

/-- The rational value of a `(mantissa, exponent)` pair. -/
def b64Val (p : Nat × Int) : ℚ := (p.1 : ℚ) * (2 : ℚ) ^ p.2

/-- Sanity check of the rounding model: the double closest to 1/3 is
`0x1.5555555555555p-2`, i.e. `6004799503160661 * 2 ^ (-54)` (the scaled
remainder is below half, so it rounds down). -/
lemma b64_third : b64DivNat 1 3 = (6004799503160661, -54) := by decide

/-- Sanity check: the double closest to 1/10 is `0x1.999999999999ap-4`,
i.e. `7205759403792794 * 2 ^ (-56)` (rounds up). -/
lemma b64_tenth : b64DivNat 1 10 = (7205759403792794, -56) := by decide

/-- Sanity check of ties-to-even: `2 ^ 53 + 1` is exactly half-way
between representable neighbours and rounds to the even one,
`2 ^ 53 = 4503599627370496 * 2 ^ 1`. -/
lemma b64_tie_even : b64DivNat (2 ^ 53 + 1) 1 = (4503599627370496, 1) := by
  decide

/-- Line 299 under CPython binary64 semantics when the request body omits
`time_taken`, so `data.get('time_taken', 60)` yields the int 60 and the
guard `time_taken > 0` holds: `wpm = (words / 60) * 60` as one rounded
double division followed by one rounded double multiplication. -/
def wpm_default_f (expected : List Char) : ℚ :=
  b64Val (b64MulNat (b64DivNat (wordCount expected) 60) 60)

/-- `submit_answer` (lines 260-320) for an existing session and a body
with `answer` and `item_id` but no `time_taken`, with line 299's wpm at
binary64 precision (`wpm_default_f`) — the one value whose float rounding
the claims distinguish from its exact-arithmetic counterpart.  The
accuracy division of line 294 is kept at its exact value as in
`submit_answer`; no claim distinguishes that single rounding. -/
def submit_answer_default_f (s : Session) (req : SubmitRequest) :
    SubmitResponse × Session :=
  match findItem s.items req.item_id with
  | none => (.itemNotFound, s)
  | some item =>
      (.ok { item_id := req.item_id,
             accuracy := accuracy item.content req.answer,
             wpm := wpm_default_f item.content,
             time_taken := 60 }
         s.current_index s.total_items, s)

/-- A 31-word expected text: `"w w w … w "` (31 times `'w'`). -/
def content31 : List Char := (List.replicate 31 ['w', ' ']).flatten

/-- A study item whose content has exactly 31 words. -/
def demoItem31 : StudyItem :=
  { id := "item-31".toList, prompt := "Type this text:".toList,
    content := content31, type := "text".toList,
    context := "Custom Text".toList }

/-- A one-item session around the 31-word item. -/
def demoSession31 : Session := createSession [demoItem31] "words.txt".toList

/-- A valid request against the 31-word item whose body omits
`time_taken`. -/
def demoReq31 : SubmitRequest :=
  { answer := content31, item_id := "item-31".toList, time_taken := none }

/-- C10 counterexample: on a valid request omitting `time_taken` against
a 31-word item, the call does not fail and scores with the default 60
seconds, but the wpm CPython computes — the binary64 evaluation of
`(31 / 60) * 60`, which is `8725724278030337 * 2 ^ (-48)`, printed
31.000000000000004 — is NOT the word count 31: the exact cancellation
`(words / 60) * 60 = words` fails under double rounding. -/
theorem submit_default_wpm_counterexample :
    wordCount demoItem31.content = 31
    ∧ (submit_answer_default_f demoSession31 demoReq31).1
        = .ok { item_id := demoReq31.item_id,
                accuracy := accuracy demoItem31.content demoReq31.answer,
                wpm := wpm_default_f demoItem31.content,
                time_taken := 60 }
            demoSession31.current_index demoSession31.total_items
    ∧ wpm_default_f demoItem31.content
        ≠ (wordCount demoItem31.content : ℚ) := by
  refine ⟨by decide, rfl, ?_⟩
  have hw : wordCount demoItem31.content = 31 := by decide
  rw [wpm_default_f, hw]
  have hnat : b64MulNat (b64DivNat 31 60) 60 = (8725724278030337, -48) := by
    decide
  rw [hnat, b64Val]
  norm_num

/-- C10 amended: for every submitAnswer request whose body omits
`time_taken` (but has `answer` and `item_id` for a valid item), the call
does not fail: it scores with the default elapsed time of 60 seconds, so
the returned result has `time_taken = 60` and a wpm equal to the binary64
evaluation of `(words / 60) * 60` — one rounded double division of the
expected text's word count by 60, then one rounded double multiplication
by 60 — which is close to, but not always exactly, the word count. -/
theorem submit_default_time_taken_f (s : Session) (req : SubmitRequest)
    (item : StudyItem) (hfind : findItem s.items req.item_id = some item)
    (_ht : req.time_taken = none) :
    submit_answer_default_f s req
      = (.ok { item_id := req.item_id,
               accuracy := accuracy item.content req.answer,
               wpm := b64Val (b64MulNat (b64DivNat (wordCount item.content) 60) 60),
               time_taken := 60 }
           s.current_index s.total_items, s) := by
  unfold submit_answer_default_f
  rw [hfind]
  rfl

/-- Witness for `submit_default_time_taken_f` on the demo session (a
2-word item, where the rounded wpm happens to coincide with the word
count). -/
theorem submit_default_time_taken_f_witness :
    (findItem demoSession.items demoReq.item_id = some demoItem
      ∧ demoReq.time_taken = none)
    ∧ submit_answer_default_f demoSession demoReq
        = (.ok { item_id := demoReq.item_id,
                 accuracy := accuracy demoItem.content demoReq.answer,
                 wpm := b64Val (b64MulNat (b64DivNat (wordCount demoItem.content) 60) 60),
                 time_taken := 60 }
             demoSession.current_index demoSession.total_items,
           demoSession) :=
  ⟨⟨rfl, rfl⟩, submit_default_time_taken_f demoSession demoReq demoItem rfl rfl⟩

/-! ## Session sequencing theorems -/

/-- One `get_next_item` call on a well-formed session state caps the
advanced index at the item count. -/
lemma advance_wf (items : List StudyItem) (fname : List Char) (i : Nat)
    (h : i ≤ items.length) :
    advance { items := items, current_index := i,
              total_items := items.length, filename := fname }
      = { items := items, current_index := min (i + 1) items.length,
          total_items := items.length, filename := fname } := by
  unfold advance get_next_item
  by_cases hi : items.length ≤ i
  · rw [if_pos hi]
    have hie : i = items.length := le_antisymm h hi
    subst hie
    simp
  · rw [if_neg hi]
    have hk : i < items.length := lt_of_not_ge hi
    rw [List.get?_eq_get hk]
    simp
    omega

/-- After `k` calls on a fresh session the index is `min k n`, with items,
total and filename untouched. -/
lemma stepN_createSession (items : List StudyItem) (fname : List Char)
    (k : Nat) :
    stepN (createSession items fname) k
      = { items := items, current_index := min k items.length,
          total_items := items.length, filename := fname } := by
  induction k with
  | zero => simp [stepN, createSession]
  | succ k ih =>
      rw [stepN, ih, advance_wf items fname _ (Nat.min_le_right _ _)]
      have : min (min k items.length + 1) items.length
          = min (k + 1) items.length := by omega
      rw [this]

/-- C1: on a session created from `n` items, the `k`-th `nextItem` call
(`k` counted from 0) succeeds exactly while `k < n`, returning `items[k]`
with `progress.current = k + 1` (the index after advancing, so it ends at
`n`) and advancing `current_index` by exactly 1; from the `n`-th call on,
every call returns the exhausted-session terminal signal and leaves
`current_index` unchanged at `n`. -/
theorem session_nextItem_protocol (items : List StudyItem)
    (fname : List Char) (k : Nat) :
    (∀ it : StudyItem, items.get? k = some it →
        get_next_item (stepN (createSession items fname) k)
          = (.served it (k + 1) items.length,
             { items := items, current_index := k + 1,
               total_items := items.length, filename := fname }))
    ∧ (items.length ≤ k →
        get_next_item (stepN (createSession items fname) k)
          = (.exhausted,
             { items := items, current_index := items.length,
               total_items := items.length, filename := fname })) := by
  rw [stepN_createSession items fname k]
  constructor
  · intro it hit
    have hk : k < items.length := by
      by_contra hnk
      rw [List.get?_eq_none.mpr (le_of_not_lt hnk)] at hit
      exact Option.noConfusion hit
    have hmk : min k items.length = k := Nat.min_eq_left (le_of_lt hk)
    rw [get_next_item]
    simp only [hmk]
    rw [if_neg (not_le.mpr hk), hit]
  · intro hk
    have hmk : min k items.length = items.length := Nat.min_eq_right hk
    rw [get_next_item]
    simp only [hmk]
    rw [if_pos (le_refl _)]

/-- Witness for `session_nextItem_protocol`: on a fresh one-item session,
call 0 serves the item with progress 1/1; the exhausted branch is
exercised at `k = 1`. -/
theorem session_nextItem_protocol_witness :
    (([demoItem].get? 0 = some demoItem)
      ∧ get_next_item (stepN (createSession [demoItem] "f".toList) 0)
          = (.served demoItem 1 1,
             { items := [demoItem], current_index := 1, total_items := 1,
               filename := "f".toList }))
    ∧ (([demoItem].length ≤ 1)
      ∧ get_next_item (stepN (createSession [demoItem] "f".toList) 1)
          = (.exhausted,
             { items := [demoItem], current_index := 1, total_items := 1,
               filename := "f".toList })) :=
  ⟨⟨rfl, (session_nextItem_protocol [demoItem] "f".toList 0).1 demoItem rfl⟩,
   ⟨le_refl 1, (session_nextItem_protocol [demoItem] "f".toList 1).2 (le_refl 1)⟩⟩

/-! ## Segmentation theorems -/

/-- The truncation marker is 39 characters long. -/
lemma truncMarker_length : truncMarker.length = 39 := by decide

/-- Truncation bounds every item's content at 1000 characters plus the
marker length. -/
lemma truncateItem_length_le (it : StudyItem) :
    (truncateItem it).content.length ≤ 1000 + truncMarker.length := by
  unfold truncateItem
  by_cases h : 1000 < it.content.length
  · rw [if_pos h]
    simp only [List.length_append, List.length_take]
    omega
  · rw [if_neg h]
    omega

set_option maxRecDepth 10000

/-- C3 counterexample: 1001 copies of `'a'` form a non-empty raw text for
which segmentation emits an item whose content is LONGER than the
configured 1000-character maximum — the truncation appends the 39-char
marker after cutting at 1000, so the item has 1039 characters. -/
theorem segment_length_bound_counterexample :
    (List.replicate 1001 'a' ≠ ([] : List Char))
    ∧ ¬ (∀ it ∈ segmentText (fun _ => []) (List.replicate 1001 'a'),
          it.content.length ≤ 1000) := by decide

/-- A fallback-guarded list is never empty. -/
lemma ite_isEmpty_ne_nil (a : StudyItem) (l : List StudyItem) :
    (if l.isEmpty then [a] else l) ≠ [] := by
  by_cases h : l.isEmpty
  · simp [h]
  · rw [if_neg h]
    intro heq
    rw [heq] at h
    exact h rfl

/-- C3 amended: for every non-empty raw text, segmentation emits at least
one StudyItem, and every emitted item's content length is at most the
configured 1000-character maximum PLUS the length of the visible
truncation marker (1039 in total); items whose content exceeded the
maximum are truncated to the maximum with the marker appended. -/
theorem segment_emits_bounded_items (idGen : Nat → List Char)
    (text : List Char) (_h : text ≠ []) :
    segmentText idGen text ≠ []
    ∧ (∀ it ∈ segmentText idGen text,
        it.content.length ≤ 1000 + truncMarker.length)
    ∧ (∀ it : StudyItem, 1000 < it.content.length →
        (truncateItem it).content = it.content.take 1000 ++ truncMarker) := by
  refine ⟨?_, ?_, ?_⟩
  · simp only [segmentText, ne_eq, List.map_eq_nil_iff]
    exact ite_isEmpty_ne_nil _ _
  · intro it hit
    simp only [segmentText, List.mem_map] at hit
    obtain ⟨x, _, hx⟩ := hit
    rw [← hx]
    exact truncateItem_length_le x
  · intro it hlong
    rw [truncateItem, if_pos hlong]

/-- Witness for `segment_emits_bounded_items` on the raw text `"hi"`. -/
theorem segment_emits_bounded_items_witness :
    ((['h', 'i'] : List Char) ≠ [])
    ∧ segmentText (fun _ => []) ['h', 'i'] ≠ []
    ∧ (∀ it ∈ segmentText (fun _ => []) ['h', 'i'],
        it.content.length ≤ 1000 + truncMarker.length) :=
  ⟨by decide,
   (segment_emits_bounded_items (fun _ => []) ['h', 'i'] (by decide)).1,
   (segment_emits_bounded_items (fun _ => []) ['h', 'i'] (by decide)).2.1⟩

/-! ## Stats-aggregation theorems -/

/-- The retained history is never empty: there is always the summary just
prepended. -/
lemma recordSession_take_pos (summary : SessionSummary)
    (history : List SessionSummary) :
    0 < ((summary :: history).take 20).length := by
  rw [List.length_take]
  simp only [List.length_cons]
  omega

/-- C5: after every `recordSession` call, the stored history is the new
summary prepended to the prior history, cut to the 20 most recent entries
(so at most 20, most-recent-first); the stored `averageWpm` and average
accuracy equal the arithmetic mean of `wpm` and `accuracy` over exactly
the retained entries. -/
theorem recordSession_history_and_averages (today : ℤ)
    (summary : SessionSummary) (stats : Stats)
    (history : List SessionSummary) :
    (recordSession today summary stats history).2
        = (summary :: history).take 20
    ∧ (recordSession today summary stats history).2.length ≤ 20
    ∧ (recordSession today summary stats history).1.averageWpm
        = ((recordSession today summary stats history).2.map
            SessionSummary.wpm).sum
          / (((recordSession today summary stats history).2.length : Nat) : ℚ)
    ∧ (recordSession today summary stats history).1.accuracy
        = ((recordSession today summary stats history).2.map
            SessionSummary.accuracy).sum
          / (((recordSession today summary stats history).2.length : Nat) : ℚ) := by
  have hpos := recordSession_take_pos summary history
  refine ⟨?_, ?_, ?_, ?_⟩
  · simp only [recordSession, if_pos hpos]
  · simp only [recordSession, if_pos hpos]
    rw [List.length_take]
    exact Nat.min_le_left _ _
  · simp only [recordSession, if_pos hpos]
  · simp only [recordSession, if_pos hpos]

/-- C6: `recordSession` updates the streak by comparing the session's
calendar day with `lastPracticeDate`: unchanged on the same day,
incremented by 1 when exactly one day later, reset to 1 on any other gap
or when there is no prior date; `lastPracticeDate` is then set to the
session's calendar day. -/
theorem recordSession_streak_update (today : ℤ) (summary : SessionSummary)
    (stats : Stats) (history : List SessionSummary) :
    ((recordSession today summary stats history).1.lastPracticeDate
        = some today)
    ∧ (stats.lastPracticeDate = some today →
        (recordSession today summary stats history).1.currentStreak
          = stats.currentStreak)
    ∧ (stats.lastPracticeDate = some (today - 1) →
        (recordSession today summary stats history).1.currentStreak
          = stats.currentStreak + 1)
    ∧ (∀ d : ℤ, stats.lastPracticeDate = some d → d ≠ today →
        d ≠ today - 1 →
        (recordSession today summary stats history).1.currentStreak = 1)
    ∧ (stats.lastPracticeDate = none →
        (recordSession today summary stats history).1.currentStreak = 1) := by
  have hpos := recordSession_take_pos summary history
  refine ⟨?_, ?_, ?_, ?_, ?_⟩
  · simp only [recordSession, if_pos hpos]
  · intro h
    simp only [recordSession, if_pos hpos]
    simp [h]
  · intro h
    have hne : today ≠ today - 1 := by omega
    simp only [recordSession, if_pos hpos]
    simp [h, hne]
  · intro d hd hne1 hne2
    have h1 : today ≠ d := fun he => hne1 he.symm
    have h2 : today - 1 ≠ d := fun he => hne2 he.symm
    simp only [recordSession, if_pos hpos]
    simp [hd, h1, h2]
  · intro h
    simp only [recordSession, if_pos hpos]
    simp [h]

/-- Demo stats (the all-zero defaults of statsStorage.js) for witness
instantiations. -/
def demoStats : Stats :=
  { averageWpm := 0, accuracy := 0, practiceTime := 0, currentStreak := 0,
    lastPracticeDate := none, totalItems := 0 }

/-- Demo session summary for witness instantiations. -/
def demoSummary : SessionSummary :=
  { wpm := 50, accuracy := 90, duration := 120, items := some 3, day := 5 }

/-- Witness for `recordSession_streak_update`: a first-ever practice
session (no prior date) sets the streak to 1. -/
theorem recordSession_streak_update_witness :
    demoStats.lastPracticeDate = none
    ∧ (recordSession 5 demoSummary demoStats []).1.currentStreak = 1 :=
  ⟨rfl, (recordSession_streak_update 5 demoSummary demoStats []).2.2.2.2 rfl⟩

end TypeSpark
